import Mathlib

/-!
# Shallow embedding of the `rerank_instructorxl` services

Two FastAPI microservices:
* `src/instructor/app_instructor.py` — the Instructor-XL embedding service
  (`GET /healthz`, `POST /embed`);
* `src/reranker/app_reranker.py` — the BGE reranker service
  (`GET /healthz`, `POST /rerank`).

The pydantic request schemas are embedded as JSON-level records of optional
fields together with a validation function implementing pydantic's semantics
for the declared fields (required fields, defaults, the `ge=1` bound on
`batch_size`, and `Optional[int]` admitting an explicit null).  The handlers
are embedded as pure functions; the sentence-transformers model calls
(`SentenceTransformer.encode`, `CrossEncoder.predict`) are outside this
repository and are modelled, per the spec, as an abstract per-item model
applied over the batch in chunks of `batch_size`.  Float vectors are
idealized as rational vectors.
-/

/-- Validation errors produced by the pydantic layer before a handler runs. -/
inductive ValidationError where
  | missingField (name : String)
  | outOfRange (name : String)
deriving DecidableEq, Repr

/-- JSON body of a `POST /embed` request, field by field as in
`EmbedRequest(BaseModel)` of `app_instructor.py`.  An outer `none` means the
field is absent from the JSON object; for `batch_size` (typed
`Optional[int]` in the source) the inner `Option` distinguishes an explicit
JSON `null` (`some none`) from an integer value (`some (some n)`). -/
structure EmbedRequestJson where
  instruction : Option String
  texts : Option (List String)
  normalize : Option Bool
  batch_size : Option (Option Int)
deriving DecidableEq, Repr

/-- A validated `EmbedRequest`:
`instruction: str = Field(default="Represent the document for retrieval: ")`,
`texts: List[str] = Field(...)`, `normalize: bool = Field(default=True)`,
`batch_size: Optional[int] = Field(default=32, ge=1)`. -/
structure EmbedRequest where
  instruction : String
  texts : List String
  normalize : Bool
  batch_size : Option Int
deriving DecidableEq, Repr

/-- `EmbedResponse` of `app_instructor.py`: `embeddings: List[List[float]]`,
with floats idealized as rationals. -/
structure EmbedResponse where
  embeddings : List (List ℚ)
deriving DecidableEq, Repr

/-- JSON body of a `POST /rerank` request, field by field as in
`RerankRequest(BaseModel)` of `app_reranker.py`. -/
structure RerankRequestJson where
  query : Option String
  candidates : Option (List String)
  batch_size : Option (Option Int)
deriving DecidableEq, Repr

/-- A validated `RerankRequest`: `query: str = Field(...)`,
`candidates: List[str] = Field(...)`,
`batch_size: Optional[int] = Field(default=32, ge=1)`. -/
structure RerankRequest where
  query : String
  candidates : List String
  batch_size : Option Int
deriving DecidableEq, Repr

/-- `RerankResponse` of `app_reranker.py`: `scores: List[float]`. -/
structure RerankResponse where
  scores : List ℚ
deriving DecidableEq, Repr

/-- The default instruction string of `EmbedRequest.instruction`. -/
def defaultInstruction : String := "Represent the document for retrieval: "

/-- Pydantic semantics of `batch_size: Optional[int] = Field(default=32, ge=1)`:
absent field → default `32`; explicit null → `None` (the `ge` bound applies
only to integer values); integer `n` → accepted iff `1 ≤ n`. -/
def validateBatchSize (bs : Option (Option Int)) : Except ValidationError (Option Int) :=
  match bs with
  | none => .ok (some 32)
  | some none => .ok none
  | some (some n) => if 1 ≤ n then .ok (some n) else .error (.outOfRange "batch_size")

/-- Pydantic validation of an `/embed` body against `EmbedRequest`. -/
def EmbedRequest.validate (j : EmbedRequestJson) : Except ValidationError EmbedRequest :=
  match j.texts with
  | none => .error (.missingField "texts")
  | some ts => do
    let bs ← validateBatchSize j.batch_size
    .ok { instruction := j.instruction.getD defaultInstruction
          texts := ts
          normalize := j.normalize.getD true
          batch_size := bs }

/-- Pydantic validation of a `/rerank` body against `RerankRequest`. -/
def RerankRequest.validate (j : RerankRequestJson) : Except ValidationError RerankRequest :=
  match j.query with
  | none => .error (.missingField "query")
  | some q =>
    match j.candidates with
    | none => .error (.missingField "candidates")
    | some cs => do
      let bs ← validateBatchSize j.batch_size
      .ok { query := q, candidates := cs, batch_size := bs }

/-- Slice a list into consecutive batches of `n` elements (the last batch may
be shorter), as the library's encode loop slices its input
`sentences[start : start + batch_size]`.  For `n ≤ 1` the batches are
singletons. -/
def toBatches (n : Nat) : List α → List (List α)
  | [] => []
  | x :: xs => (x :: xs.take (n - 1)) :: toBatches n (xs.drop (n - 1))
termination_by xs => xs.length
decreasing_by simp [List.length_drop]; omega

/-- Modelled from the spec: `SentenceTransformer.encode` and
`CrossEncoder.predict` live in the sentence-transformers library, outside
this repository.  Per the spec the model produces one output per input, in
input order, and `batch_size` "controls internal chunking only": the batch
call applies an abstract per-item model `f` to each element of each
`batch_size`-sized chunk and concatenates the chunk results.  A `none`
batch size (JSON null forwarded unchanged) is modelled as unchunked
application. -/
def encodeBatched (f : α → β) (batch_size : Option Int) (inputs : List α) : List β :=
  match batch_size with
  | none => inputs.map f
  | some b => ((toBatches b.toNat inputs).map (List.map f)).flatten

/-- The `/embed` handler of `app_instructor.py`, parameterized by the
abstract per-pair model `f` (taking the `normalize_embeddings` flag and the
`[instruction, text]` pair): builds `pairs = [[req.instruction, t] for t in
req.texts]` and calls the model on `pairs` with the request's `normalize`
and `batch_size`. -/
def embed (f : Bool → List String → List ℚ) (req : EmbedRequest) : EmbedResponse :=
  let pairs := req.texts.map (fun t => [req.instruction, t])
  let embs := encodeBatched (f req.normalize) req.batch_size pairs
  { embeddings := embs }

/-- The `/rerank` handler of `app_reranker.py`, parameterized by the abstract
per-pair cross-encoder `g`: builds `pairs = [(req.query, c) for c in
req.candidates]` and calls the model on `pairs` with the request's
`batch_size`. -/
def rerank (g : String × String → ℚ) (req : RerankRequest) : RerankResponse :=
  let pairs := req.candidates.map (fun c => (req.query, c))
  { scores := encodeBatched g req.batch_size pairs }

/-- A `POST /embed` request as served by FastAPI: pydantic validation first
(client error on failure), then the handler. -/
def handleEmbed (f : Bool → List String → List ℚ) (j : EmbedRequestJson) :
    Except ValidationError EmbedResponse :=
  (EmbedRequest.validate j).map (embed f)

/-- A `POST /rerank` request as served by FastAPI: pydantic validation first
(client error on failure), then the handler. -/
def handleRerank (g : String × String → ℚ) (j : RerankRequestJson) :
    Except ValidationError RerankResponse :=
  (RerankRequest.validate j).map (rerank g)

/-- `device = "cuda" if torch.cuda.is_available() else "cpu"`, evaluated once
at module import. -/
def selectDevice (cuda_available : Bool) : String :=
  if cuda_available then "cuda" else "cpu"

/-- The `GET /healthz` response body `{"status": "ok", "device": device}`. -/
structure HealthResponse where
  status : String
  device : String
deriving DecidableEq, Repr

/-- The mutable per-process state of a service: only the module-level
`device` variable (the loaded model is held abstractly by the handler
parameters `f`, `g`). -/
structure ServerState where
  device : String
deriving DecidableEq, Repr

/-- A request to either service. -/
inductive Request where
  | healthz
  | embedReq (j : EmbedRequestJson)
  | rerankReq (j : RerankRequestJson)
deriving DecidableEq, Repr

/-- A response from either service. -/
inductive Response where
  | health (h : HealthResponse)
  | embedRes (r : Except ValidationError EmbedResponse)
  | rerankRes (r : Except ValidationError RerankResponse)
deriving Repr

/-- One request-response step of the services: `healthz` reads the device,
the two POST handlers neither read nor write it. -/
def step (f : Bool → List String → List ℚ) (g : String × String → ℚ)
    (s : ServerState) : Request → ServerState × Response
  | .healthz => (s, .health { status := "ok", device := s.device })
  | .embedReq j => (s, .embedRes (handleEmbed f j))
  | .rerankReq j => (s, .rerankRes (handleRerank g j))

/-- Serve a list of requests in order from a state, collecting responses. -/
def run (f : Bool → List String → List ℚ) (g : String × String → ℚ)
    (s : ServerState) : List Request → ServerState × List Response
  | [] => (s, [])
  | r :: rs =>
    let sr := step f g s r
    let srs := run f g sr.1 rs
    (srs.1, sr.2 :: srs.2)

/-- Sum of squares of a rational vector (the square of its L2 norm). -/
def sumSq (v : List ℚ) : ℚ := (v.map (fun x => x * x)).sum

/-- Division of a vector by a scalar: the elementwise step of L2
normalization. -/
def scaleInv (v : List ℚ) (s : ℚ) : List ℚ := v.map (fun x => x / s)

/-- Modelled from the spec: the library encoder (outside this repository)
computes a raw vector `raw p` per pair `p` and, when
`normalize_embeddings=True`, divides it by its L2 norm.  The norm is
represented by a scalar function `nrm` constrained (where used) by
`nrm p * nrm p = sumSq (raw p)`. -/
def modelEncodeOne (raw : List String → List ℚ) (nrm : List String → ℚ)
    (normalize : Bool) (p : List String) : List ℚ :=
  if normalize then scaleInv (raw p) (nrm p) else raw p

/-! ## Basic lemmas about batching -/

theorem toBatches_flatten (n : Nat) (xs : List α) : (toBatches n xs).flatten = xs := by
  generalize h : xs.length = k
  induction k using Nat.strong_induction_on generalizing xs with
  | _ k ih =>
    match xs, h with
    | [], _ => simp [toBatches]
    | x :: xs, h =>
      rw [toBatches]
      have hlt : (xs.drop (n - 1)).length < k := by
        subst h
        simp only [List.length_drop, List.length_cons]
        omega
      simp only [List.flatten_cons, ih _ hlt _ rfl, List.cons_append]
      rw [List.take_append_drop]

theorem encodeBatched_eq_map (f : α → β) (bs : Option Int) (xs : List α) :
    encodeBatched f bs xs = xs.map f := by
  cases bs with
  | none => rfl
  | some b =>
    show ((toBatches b.toNat xs).map (List.map f)).flatten = xs.map f
    rw [← List.map_flatten, toBatches_flatten]

theorem except_error_bind (e : ε) (k : α → Except ε β) :
    (Except.error e : Except ε α) >>= k = Except.error e := rfl

theorem except_ok_bind (a : α) (k : α → Except ε β) :
    (Except.ok a : Except ε α) >>= k = k a := rfl

theorem step_state (f : Bool → List String → List ℚ) (g : String × String → ℚ)
    (s : ServerState) (r : Request) : (step f g s r).1 = s := by
  cases r <;> rfl

theorem run_healthz_responses (f : Bool → List String → List ℚ)
    (g : String × String → ℚ) (s : ServerState) (rs : List Request) :
    (run f g s rs).1 = s ∧
    ∀ i : Nat, rs[i]? = some Request.healthz →
      (run f g s rs).2[i]? =
        some (Response.health { status := "ok", device := s.device }) := by
  induction rs generalizing s with
  | nil =>
    refine ⟨rfl, fun i h => ?_⟩
    simp at h
  | cons r rs ih =>
    refine ⟨?_, ?_⟩
    · show (run f g (step f g s r).1 rs).1 = s
      rw [step_state, (ih s).1]
    · intro i h
      match i, h with
      | 0, h =>
        simp at h
        subst h
        simp [run, step]
      | i + 1, h =>
        have h2 := (ih s).2 i (by simpa using h)
        simp only [run, step_state, List.getElem?_cons_succ]
        exact h2

theorem sumSq_scaleInv (v : List ℚ) (s : ℚ) (h : s * s = sumSq v) (hs : s ≠ 0) :
    sumSq (scaleInv v s) = 1 := by
  have hss : s * s ≠ 0 := mul_ne_zero hs hs
  unfold sumSq scaleInv
  rw [List.map_map]
  have hfun : ((fun x => x * x) ∘ fun x : ℚ => x / s) = fun x : ℚ => (x * x) * (s * s)⁻¹ := by
    funext x
    simp only [Function.comp_apply, div_mul_div_comm, div_eq_mul_inv]
    ring
  rw [hfun, List.sum_map_mul_right]
  unfold sumSq at h
  rw [← h, mul_inv_cancel₀ hss]

/-! ## Concrete instances used by witnesses -/

/-- A concrete stand-in per-pair embedding model. -/
def constVecModel (_ : Bool) (_ : List String) : List ℚ := [1, 0]

/-- A concrete stand-in per-pair cross-encoder. -/
def constScoreModel (_ : String × String) : ℚ := 1

/-- A concrete validated embed request. -/
def ereqW : EmbedRequest :=
  { instruction := "inst", texts := ["a", "b"], normalize := true, batch_size := some 32 }

/-- A concrete validated rerank request. -/
def rreqW : RerankRequest :=
  { query := "q", candidates := ["x", "y", "z"], batch_size := some 32 }

/-! ## Claims -/

/-- C1: for every valid request, the response list has the same length as the
input list and is order-preserving: `/embed` returns exactly one embedding per
element of `texts`, in the order of `texts`, and `/rerank` returns exactly one
score per element of `candidates`, in the order of `candidates`. -/
theorem output_length_eq_input_length_and_order_preserving
    (f : Bool → List String → List ℚ) (g : String × String → ℚ)
    (ereq : EmbedRequest) (rreq : RerankRequest) :
    ((embed f ereq).embeddings.length = ereq.texts.length ∧
      ∀ i : Nat, i < ereq.texts.length →
        (embed f ereq).embeddings[i]? =
          (ereq.texts[i]?).map (fun t => f ereq.normalize [ereq.instruction, t])) ∧
    ((rerank g rreq).scores.length = rreq.candidates.length ∧
      ∀ i : Nat, i < rreq.candidates.length →
        (rerank g rreq).scores[i]? =
          (rreq.candidates[i]?).map (fun c => g (rreq.query, c))) := by
  refine ⟨⟨?_, fun i _ => ?_⟩, ?_, fun i _ => ?_⟩ <;>
    simp [embed, rerank, encodeBatched_eq_map, List.getElem?_map, Option.map_map,
      Function.comp_def]

/-- Witness for C1 at concrete requests. -/
theorem output_length_eq_input_length_and_order_preserving_witness :
    (0 < ereqW.texts.length ∧
      (embed constVecModel ereqW).embeddings[0]? =
        (ereqW.texts[0]?).map (fun t => constVecModel ereqW.normalize [ereqW.instruction, t])) ∧
    (2 < rreqW.candidates.length ∧
      (rerank constScoreModel rreqW).scores[2]? =
        (rreqW.candidates[2]?).map (fun c => constScoreModel (rreqW.query, c))) :=
  ⟨⟨by decide,
    (output_length_eq_input_length_and_order_preserving constVecModel constScoreModel
      ereqW rreqW).1.2 0 (by decide)⟩,
   ⟨by decide,
    (output_length_eq_input_length_and_order_preserving constVecModel constScoreModel
      ereqW rreqW).2.2 2 (by decide)⟩⟩

/-- C2: for every valid `EmbedRequest`, `embed` pairs each element `t` of
`texts` with the request's `instruction` (forming `[instruction, t]`), applies
the loaded model to the pair list with the request's `normalize` flag, and
returns the resulting vectors in the input order of `texts`. -/
theorem embed_applies_model_to_instruction_text_pairs
    (f : Bool → List String → List ℚ) (req : EmbedRequest) :
    (embed f req).embeddings =
      (req.texts.map (fun t => [req.instruction, t])).map (f req.normalize) := by
  simp [embed, encodeBatched_eq_map]

/-- C3: for every valid `RerankRequest`, `rerank` forms the pair `(query, c)`
for each element `c` of `candidates`, applies the loaded cross-encoder to the
pair list, and returns one score per pair in the order of `candidates`. -/
theorem rerank_applies_model_to_query_candidate_pairs
    (g : String × String → ℚ) (req : RerankRequest) :
    (rerank g req).scores =
      (req.candidates.map (fun c => (req.query, c))).map g := by
  simp [rerank, encodeBatched_eq_map]

/-- C4: a request missing a required field (`texts`; `query` or `candidates`)
or carrying an integer `batch_size < 1` is rejected by validation with a
client error that does not depend on the model — so no inference happens and
no partial response is returned. -/
theorem invalid_request_rejected_before_inference
    (j : EmbedRequestJson) (jr : RerankRequestJson) :
    ((j.texts = none ∨ ∃ n : Int, j.batch_size = some (some n) ∧ n < 1) →
      ∃ e : ValidationError,
        ∀ f : Bool → List String → List ℚ, handleEmbed f j = .error e) ∧
    ((jr.query = none ∨ jr.candidates = none ∨
        ∃ n : Int, jr.batch_size = some (some n) ∧ n < 1) →
      ∃ e : ValidationError,
        ∀ g : String × String → ℚ, handleRerank g jr = .error e) := by
  constructor
  · rintro (h | ⟨n, hbs, hn⟩)
    · exact ⟨.missingField "texts", fun f => by
        simp [handleEmbed, EmbedRequest.validate, h, Except.map]⟩
    · cases ht : j.texts with
      | none => exact ⟨.missingField "texts", fun f => by
          simp [handleEmbed, EmbedRequest.validate, ht, Except.map]⟩
      | some ts =>
        refine ⟨.outOfRange "batch_size", fun f => ?_⟩
        have hb : validateBatchSize j.batch_size = .error (.outOfRange "batch_size") := by
          rw [hbs]
          simp only [validateBatchSize]
          rw [if_neg (by omega)]
        simp [handleEmbed, EmbedRequest.validate, ht, hb, except_error_bind, Except.map]
  · rintro (h | h | ⟨n, hbs, hn⟩)
    · exact ⟨.missingField "query", fun g => by
        simp [handleRerank, RerankRequest.validate, h, Except.map]⟩
    · cases hq : jr.query with
      | none => exact ⟨.missingField "query", fun g => by
          simp [handleRerank, RerankRequest.validate, hq, Except.map]⟩
      | some q => exact ⟨.missingField "candidates", fun g => by
          simp [handleRerank, RerankRequest.validate, hq, h, Except.map]⟩
    · cases hq : jr.query with
      | none => exact ⟨.missingField "query", fun g => by
          simp [handleRerank, RerankRequest.validate, hq, Except.map]⟩
      | some q =>
        cases hc : jr.candidates with
        | none => exact ⟨.missingField "candidates", fun g => by
            simp [handleRerank, RerankRequest.validate, hq, hc, Except.map]⟩
        | some cs =>
          refine ⟨.outOfRange "batch_size", fun g => ?_⟩
          have hb : validateBatchSize jr.batch_size = .error (.outOfRange "batch_size") := by
            rw [hbs]
            simp only [validateBatchSize]
            rw [if_neg (by omega)]
          simp [handleRerank, RerankRequest.validate, hq, hc, hb, except_error_bind, Except.map]

/-- A concrete invalid embed body: `texts` missing (and a zero batch size). -/
def badEmbedJson : EmbedRequestJson :=
  { instruction := none, texts := none, normalize := none, batch_size := some (some 0) }

/-- A concrete invalid rerank body: `query` missing. -/
def badRerankJson : RerankRequestJson :=
  { query := none, candidates := some ["x"], batch_size := none }

/-- Witness for C4 at concrete invalid request bodies. -/
theorem invalid_request_rejected_before_inference_witness :
    (badEmbedJson.texts = none ∨
      ∃ n : Int, badEmbedJson.batch_size = some (some n) ∧ n < 1) ∧
    (badRerankJson.query = none ∨ badRerankJson.candidates = none ∨
      ∃ n : Int, badRerankJson.batch_size = some (some n) ∧ n < 1) ∧
    (∃ e : ValidationError,
      ∀ f : Bool → List String → List ℚ, handleEmbed f badEmbedJson = .error e) ∧
    (∃ e : ValidationError,
      ∀ g : String × String → ℚ, handleRerank g badRerankJson = .error e) :=
  ⟨Or.inl rfl, Or.inl rfl,
   (invalid_request_rejected_before_inference badEmbedJson badRerankJson).1 (Or.inl rfl),
   (invalid_request_rejected_before_inference badEmbedJson badRerankJson).2 (Or.inl rfl)⟩

/-- C5: omitted optional fields default to
`instruction = "Represent the document for retrieval: "`, `normalize = true`
and `batch_size = 32` for `/embed`, and `batch_size = 32` for `/rerank`. -/
theorem omitted_fields_get_documented_defaults
    (ts : List String) (q : String) (cs : List String) :
    EmbedRequest.validate
        { instruction := none, texts := some ts, normalize := none, batch_size := none } =
      .ok { instruction := "Represent the document for retrieval: ", texts := ts,
            normalize := true, batch_size := some 32 } ∧
    RerankRequest.validate { query := some q, candidates := some cs, batch_size := none } =
      .ok { query := q, candidates := cs, batch_size := some 32 } :=
  ⟨rfl, rfl⟩

/-- C6: the device is chosen once at process start (`selectDevice`); no
request changes the server state, so every `GET /healthz` served during a
run answers `{status := "ok", device := d}` with that startup device `d`. -/
theorem healthz_always_ok_with_startup_device
    (cuda : Bool) (f : Bool → List String → List ℚ) (g : String × String → ℚ)
    (rs : List Request) (i : Nat)
    (h : rs[i]? = some Request.healthz) :
    (∀ s r, (step f g s r).1 = s) ∧
    (run f g { device := selectDevice cuda } rs).2[i]? =
      some (Response.health { status := "ok", device := selectDevice cuda }) :=
  ⟨fun s r => step_state f g s r,
   (run_healthz_responses f g { device := selectDevice cuda } rs).2 i h⟩

/-- A concrete request sequence interleaving health checks with POSTs. -/
def reqsW : List Request :=
  [Request.healthz,
   Request.embedReq { instruction := none, texts := some ["a"], normalize := none,
                      batch_size := none },
   Request.rerankReq { query := some "q", candidates := some ["x"], batch_size := none },
   Request.healthz]

/-- Witness for C6: the last health check of the concrete run still reports
the startup device. -/
theorem healthz_always_ok_with_startup_device_witness :
    reqsW[3]? = some Request.healthz ∧
    (∀ s r, (step constVecModel constScoreModel s r).1 = s) ∧
    (run constVecModel constScoreModel { device := selectDevice false } reqsW).2[3]? =
      some (Response.health { status := "ok", device := selectDevice false }) :=
  ⟨by decide,
   healthz_always_ok_with_startup_device false constVecModel constScoreModel reqsW 3
     (by decide)⟩

/-- C7: two valid requests to the same endpoint differing only in
`batch_size` produce responses of equal shape: same number of embeddings and
same dimension at every position for `/embed`, same number of scores for
`/rerank`. -/
theorem batch_size_does_not_affect_output_shape
    (f : Bool → List String → List ℚ) (g : String × String → ℚ)
    (ereq : EmbedRequest) (rreq : RerankRequest) (bs bs' : Option Int) :
    ((embed f { ereq with batch_size := bs }).embeddings.length =
        (embed f { ereq with batch_size := bs' }).embeddings.length ∧
      ∀ i : Nat,
        ((embed f { ereq with batch_size := bs }).embeddings[i]?).map List.length =
          ((embed f { ereq with batch_size := bs' }).embeddings[i]?).map List.length) ∧
    (rerank g { rreq with batch_size := bs }).scores.length =
      (rerank g { rreq with batch_size := bs' }).scores.length := by
  have he : ∀ b, (embed f { ereq with batch_size := b }).embeddings =
      (ereq.texts.map (fun t => [ereq.instruction, t])).map (f ereq.normalize) := by
    intro b
    simp [embed, encodeBatched_eq_map]
  have hr : ∀ b, (rerank g { rreq with batch_size := b }).scores =
      (rreq.candidates.map (fun c => (rreq.query, c))).map g := by
    intro b
    simp [rerank, encodeBatched_eq_map]
  rw [he bs, he bs', hr bs, hr bs']
  exact ⟨⟨rfl, fun i => rfl⟩, rfl⟩

/-- C8: with `normalize = true`, every returned embedding has unit L2 norm:
if the library's raw vector `raw p` has L2 norm `nrm p` (`nrm p * nrm p`
equals the sum of squares of `raw p`, nonzero), the normalized vector's sum
of squares is exactly `1`. -/
theorem normalize_true_gives_unit_norm
    (raw : List String → List ℚ) (nrm : List String → ℚ) (req : EmbedRequest)
    (hn : ∀ p, nrm p * nrm p = sumSq (raw p)) (hnz : ∀ p, nrm p ≠ 0)
    (hreq : req.normalize = true) :
    ∀ v ∈ (embed (modelEncodeOne raw nrm) req).embeddings, sumSq v = 1 := by
  intro v hv
  simp only [embed, encodeBatched_eq_map, List.map_map, List.mem_map,
    Function.comp_apply] at hv
  obtain ⟨t, _, rfl⟩ := hv
  rw [hreq, modelEncodeOne, if_pos rfl]
  exact sumSq_scaleInv _ _ (hn _) (hnz _)

/-- A concrete raw model vector for the C8 witness. -/
def rawW (_ : List String) : List ℚ := [3, 4]

/-- The L2 norm of `rawW`'s output. -/
def nrmW (_ : List String) : ℚ := 5

/-- Witness for C8 at a concrete raw model whose vectors have norm 5. -/
theorem normalize_true_gives_unit_norm_witness :
    (∀ p : List String, nrmW p * nrmW p = sumSq (rawW p)) ∧
    (∀ p : List String, nrmW p ≠ 0) ∧
    ereqW.normalize = true ∧
    ∀ v ∈ (embed (modelEncodeOne rawW nrmW) ereqW).embeddings, sumSq v = 1 :=
  ⟨fun p => by simp only [nrmW, rawW]; norm_num [sumSq],
   fun p => by simp only [nrmW]; norm_num, rfl,
   normalize_true_gives_unit_norm rawW nrmW ereqW
     (fun p => by simp only [nrmW, rawW]; norm_num [sumSq])
     (fun p => by simp only [nrmW]; norm_num) rfl⟩

/-- C9: an empty input list is accepted: `texts = []` (resp.
`candidates = []`) passes validation and yields an empty `embeddings`
(resp. `scores`) list. -/
theorem empty_input_list_accepted
    (f : Bool → List String → List ℚ) (g : String × String → ℚ)
    (instr : Option String) (nopt : Option Bool) (q : String) :
    handleEmbed f { instruction := instr, texts := some [], normalize := nopt,
                    batch_size := none } =
      .ok { embeddings := [] } ∧
    handleRerank g { query := some q, candidates := some [], batch_size := none } =
      .ok { scores := [] } := by
  constructor <;>
    simp [handleEmbed, handleRerank, EmbedRequest.validate, RerankRequest.validate,
      validateBatchSize, embed, rerank, encodeBatched_eq_map, except_ok_bind, Except.map]

/-- C10: an explicit `batch_size` of null passes validation on both
endpoints (the `ge=1` bound applies only to integer values), the validated
request carries `batch_size = None`, and that `None` is the batch size
argument of the model call producing the response. -/
theorem null_batch_size_accepted_and_forwarded
    (f : Bool → List String → List ℚ) (g : String × String → ℚ)
    (instr : Option String) (nopt : Option Bool) (ts : List String)
    (q : String) (cs : List String) :
    (EmbedRequest.validate
          { instruction := instr, texts := some ts, normalize := nopt,
            batch_size := some none } =
        .ok { instruction := instr.getD defaultInstruction, texts := ts,
              normalize := nopt.getD true, batch_size := none } ∧
      handleEmbed f
          { instruction := instr, texts := some ts, normalize := nopt,
            batch_size := some none } =
        .ok { embeddings := encodeBatched (f (nopt.getD true)) none
                (ts.map (fun t => [instr.getD defaultInstruction, t])) }) ∧
    (RerankRequest.validate
          { query := some q, candidates := some cs, batch_size := some none } =
        .ok { query := q, candidates := cs, batch_size := none } ∧
      handleRerank g { query := some q, candidates := some cs, batch_size := some none } =
        .ok { scores := encodeBatched g none (cs.map (fun c => (q, c))) }) :=
  ⟨⟨rfl, rfl⟩, ⟨rfl, rfl⟩⟩
